import Mathlib

/-!
Shallow embedding of the client-side storage network layer: the status-code
to domain-error translator, the response handlers of the resumable upload
protocol (session start, status query, chunk upload), the download-bytes
handler, and the retrying single-shot transport executor `makeRequest`.

Byte counts and offsets are embedded as `Int` (the source performs only
exact integer arithmetic on them).  Fallible handlers return
`Except StorageError α`.  External collaborators that the source imports
from modules outside this repository slice (`fromResourceString`, the
retryable-status predicate, the blob abstraction) are passed as parameters
or modelled by the fields the source reads.
-/

namespace Storage

/-- An object location: bucket name plus object path. -/
structure Location where
  bucket : String
  path : String
deriving DecidableEq

/-- The closed domain-error taxonomy of the error module, plus
`rangeNotSatisfiable` standing for the distinct
`Error('Requested Range Not Satisfiable')` thrown by `getBytesResponseHandler`. -/
inductive StorageError where
  | unknown
  | unauthenticated
  | unauthorizedApp
  | quotaExceeded (bucket : String)
  | unauthorized (path : String)
  | objectNotFound (path : String)
  | serverFileWrongSize
  | cannotSliceBlob
  | retryLimitExceeded
  | rangeNotSatisfiable
deriving DecidableEq

/-- An HTTP response: status code, status text, headers and body text
(the body standing in for both `res.text()` and `res.blob()`). -/
structure HttpResponse where
  status : Nat
  statusText : String
  headers : List (String × String)
  bodyText : String
deriving DecidableEq

/-- Model of `Response.ok`: the status is in the 200..299 range. -/
def HttpResponse.ok (r : HttpResponse) : Bool :=
  200 ≤ r.status && r.status < 300

/-- Model of `res.headers.get(name)`: the value of the first header with the given
name, or null (`none`) when absent. -/
def HttpResponse.headerGet (r : HttpResponse) (name : String) : Option String :=
  (r.headers.find? (fun p => p.1 == name)).map (fun p => p.2)

/-- Object metadata (from the metadata module, outside this slice); only its
presence or absence matters to the properties below, so it is carried opaquely
as its resource string. -/
structure Metadata where
  raw : String
deriving DecidableEq

/-- A byte range `[startByte, endByte)` of a blob, standing for the sliced blob
returned by `FbsBlob.slice`. -/
structure BlobSlice where
  startByte : Int
  endByte : Int
deriving DecidableEq

/-- Model of `FbsBlob` (from the blob module, outside this slice), modelled by its size
and by whether slicing succeeds: `slice` returns null exactly when the
underlying data can no longer be sliced. -/
structure FbsBlob where
  sz : Int
  sliceable : Bool
deriving DecidableEq

/-- Model of `blob.size()`. -/
def FbsBlob.size (b : FbsBlob) : Int := b.sz

/-- Model of `blob.slice(startByte, endByte)`: the byte range, or null on failure. -/
def FbsBlob.slice (b : FbsBlob) (s e : Int) : Option BlobSlice :=
  if b.sliceable then some ⟨s, e⟩ else none

/-- Auxiliary for `strContains`: does the first list begin with the second? -/
def charsBeginWith : List Char → List Char → Bool
  | _, [] => true
  | [], _ :: _ => false
  | c :: cs, p :: ps => c == p && charsBeginWith cs ps

/-- Auxiliary for `strContains`: does the first list contain the second as a
contiguous run? -/
def charsContain (s pat : List Char) : Bool :=
  match s with
  | [] => pat.isEmpty
  | _ :: tail => charsBeginWith s pat || charsContain tail pat

/-- Model of `s.includes(pat)` on JS strings. -/
def strContains (s pat : String) : Bool := charsContain s.toList pat.toList

/-- Model of `isString` from the type module, applied to a `headers.get` result:
`headers.get` returns a string or null, so the check holds exactly on
non-null values. -/
def isString (p : Option String) : Bool := p.isSome

/-- Auxiliary for `jsNumber`: accumulate decimal digits, failing on any
non-digit character. -/
def digitsToNatAux : List Char → Nat → Option Nat
  | [], acc => some acc
  | c :: cs, acc =>
    if c.isDigit then digitsToNatAux cs (acc * 10 + (c.toNat - 48))
    else none

/-- Model of `Number(s)` combined with the `isNaN` rejection, modelled for optionally
negated decimal integer strings (the only shape the protocol sends):
`none` stands for NaN. -/
def jsNumber (s : String) : Option Int :=
  match s.toList with
  | [] => none
  | '-' :: cs =>
    (match cs with
     | [] => none
     | _ => (digitsToNatAux cs 0).map (fun n => -(n : Int)))
  | cs => (digitsToNatAux cs 0).map (fun n => (n : Int))

/-- Model of `handlerCheck`: throws the UNKNOWN StorageError if `cndn` is false. -/
def handlerCheck (cndn : Bool) : Except StorageError Unit :=
  if cndn then Except.ok () else Except.error StorageError.unknown

/-- Model of `metadataHandler`: rejects non-ok responses with `unknown`, parses the body
with `fromResourceString` (external collaborator, `none` = parse failure =
null) and rejects a null parse with `unknown`. -/
def metadataHandler (res : HttpResponse) (fromResourceString : String → Option Metadata) :
    Except StorageError Metadata :=
  if !res.ok then Except.error StorageError.unknown
  else
    match fromResourceString res.bodyText with
    | none => Except.error StorageError.unknown
    | some m => Except.ok m

/-- Model of `sharedErrorHandler`: passes an ok response through, and classifies every
non-ok response by status code (the JS `switch` is this if-chain). -/
def sharedErrorHandler (res : HttpResponse) (location : Location) :
    Except StorageError HttpResponse :=
  if res.ok then Except.ok res
  else if res.status == 401 then
    (if strContains res.statusText "Firebase App Check token is invalid" then
      Except.error StorageError.unauthorizedApp
    else
      Except.error StorageError.unauthenticated)
  else if res.status == 402 then
    Except.error (StorageError.quotaExceeded location.bucket)
  else if res.status == 403 then
    Except.error (StorageError.unauthorized location.path)
  else
    Except.error StorageError.unknown

/-- Model of `objectErrorHandler`: runs `sharedErrorHandler` and refines any error on a
404 response into `objectNotFound`. -/
def objectErrorHandler (res : HttpResponse) (location : Location) :
    Except StorageError HttpResponse :=
  match sharedErrorHandler res location with
  | Except.ok r => Except.ok r
  | Except.error e =>
    if res.status == 404 then Except.error (StorageError.objectNotFound location.path)
    else Except.error e

/-- Model of `getBytesResponseHandler`: 416 throws the distinct range error; any other
status outside {200, 206} throws `unknown`; otherwise the response flows
through `objectErrorHandler` and the body (blob) is returned. -/
def getBytesResponseHandler (res : HttpResponse) (location : Location) :
    Except StorageError String :=
  if res.status == 416 then Except.error StorageError.rangeNotSatisfiable
  else if !([200, 206].contains res.status) then Except.error StorageError.unknown
  else
    match objectErrorHandler res location with
    | Except.error e => Except.error e
    | Except.ok r => Except.ok r.bodyText

/-- Model of `ResumableUploadStatus`: current acknowledged bytes, total bytes, whether
the server has finalized, and the committed metadata (null unless passed). -/
structure ResumableUploadStatus where
  current : Int
  total : Int
  finalized : Bool
  metadata : Option Metadata
deriving DecidableEq

/-- Model of `checkResumeHeader_`: reads `X-Goog-Upload-Status` and requires it to be a
non-empty string (JS truthiness of `!!status`) listed in `allowed`
(default `['active']`); otherwise throws `unknown`.  (`headers.get` cannot
throw in this model, so the try/catch of the source is inert.) -/
def checkResumeHeader_ (res : HttpResponse) (allowed : Option (List String)) :
    Except StorageError String :=
  match res.headerGet "X-Goog-Upload-Status" with
  | none => Except.error StorageError.unknown
  | some s =>
    if !(s == "") && (allowed.getD ["active"]).contains s then Except.ok s
    else Except.error StorageError.unknown

/-- Model of `createResumableUploadHandler`: requires an `active` upload status and a
present (string-valued) `X-Goog-Upload-URL` header, which it returns. -/
def createResumableUploadHandler (res : HttpResponse) : Except StorageError String :=
  match checkResumeHeader_ res none with
  | Except.error e => Except.error e
  | Except.ok _ =>
    let url := res.headerGet "X-Goog-Upload-URL"
    if isString url then Except.ok (url.getD "") else Except.error StorageError.unknown

/-- Model of `getResumableUploadStatusHandler`: requires status `active` or `final` and
a non-empty numeric `X-Goog-Upload-Size-Received` header
(`jsNumber` models `Number(sizeString)` together with the `isNaN`
rejection); returns
`ResumableUploadStatus(size, blob.size(), status === 'final')` — note the
constructor's metadata argument is omitted, hence null. -/
def getResumableUploadStatusHandler (res : HttpResponse) (blob : FbsBlob) :
    Except StorageError ResumableUploadStatus :=
  match checkResumeHeader_ res (some ["active", "final"]) with
  | Except.error e => Except.error e
  | Except.ok status =>
    match res.headerGet "X-Goog-Upload-Size-Received" with
    | none => Except.error StorageError.unknown
    | some sizeString =>
      if sizeString == "" then Except.error StorageError.unknown
      else
        match jsNumber sizeString with
        | none => Except.error StorageError.unknown
        | some size => Except.ok ⟨size, blob.size, status == "final", none⟩

/-- The data of the request built by `buildContinueResumableUploadRequest`:
the `X-Goog-Upload-Command` header, the `X-Goog-Upload-Offset` header (kept
as the number the source stringifies), the sliced body, and the values of
`status_.current`, `status_.total` and `bytesToUpload` that the returned
handler closes over. -/
structure ContinueUploadRequest where
  uploadCommand : String
  uploadOffset : Int
  body : BlobSlice
  statusCurrent : Int
  statusTotal : Int
  bytesToUpload : Int
deriving DecidableEq

/-- Model of `buildContinueResumableUploadRequest` (request-building part): copies the
caller's status into a fresh `status_` (or starts at `(0, blob.size())`),
rejects a blob whose size disagrees with `status_.total`, computes the chunk
plan and slices the body. -/
def buildContinueResumableUploadRequest (blob : FbsBlob) (chunkSize : Int)
    (status : Option ResumableUploadStatus) : Except StorageError ContinueUploadRequest :=
  let status_ : ResumableUploadStatus :=
    match status with
    | some s => ⟨s.current, s.total, false, none⟩
    | none => ⟨0, blob.size, false, none⟩
  if blob.size ≠ status_.total then Except.error StorageError.serverFileWrongSize
  else
    let bytesLeft := status_.total - status_.current
    let bytesToUpload := if 0 < chunkSize then min bytesLeft chunkSize else bytesLeft
    let startByte := status_.current
    let endByte := startByte + bytesToUpload
    let uploadCommand :=
      if bytesToUpload = 0 then "finalize"
      else if bytesLeft = bytesToUpload then "upload, finalize"
      else "upload"
    match blob.slice startByte endByte with
    | none => Except.error StorageError.cannotSliceBlob
    | some body =>
      Except.ok ⟨uploadCommand, status_.current, body, status_.current, status_.total, bytesToUpload⟩

/-- The handler closed over by `buildContinueResumableUploadRequest`: runs the
shared translator, requires status `active` or `final`, computes
`newCurrent = status_.current + bytesToUpload`, parses metadata from the body
exactly when the status is `final`, and returns a freshly constructed
`ResumableUploadStatus`. -/
def continueResumableUploadHandler (req : ContinueUploadRequest) (location : Location)
    (fromResourceString : String → Option Metadata) (blob : FbsBlob) (res : HttpResponse) :
    Except StorageError ResumableUploadStatus :=
  match sharedErrorHandler res location with
  | Except.error e => Except.error e
  | Except.ok _ =>
    match checkResumeHeader_ res (some ["active", "final"]) with
    | Except.error e => Except.error e
    | Except.ok uploadStatus =>
      if uploadStatus == "final" then
        match metadataHandler res fromResourceString with
        | Except.error e => Except.error e
        | Except.ok m =>
          Except.ok ⟨req.statusCurrent + req.bytesToUpload, blob.size, true, some m⟩
      else
        Except.ok ⟨req.statusCurrent + req.bytesToUpload, blob.size, false, none⟩

/-- The object-field writes performed by `buildContinueResumableUploadRequest`,
on an explicit two-object store (the caller's status object and the fresh
`status_`): the source assigns only to `status_.current` and `status_.total`;
the caller's object is never written.  The first component is the caller's
object after the call. -/
def buildContinueWrites (blob : FbsBlob) (status : Option ResumableUploadStatus) :
    Option ResumableUploadStatus × ResumableUploadStatus :=
  let status_ : ResumableUploadStatus := ⟨0, 0, false, none⟩
  match status with
  | some s =>
    let status_ := { status_ with current := s.current }
    let status_ := { status_ with total := s.total }
    (some s, status_)
  | none =>
    let status_ := { status_ with current := 0 }
    let status_ := { status_ with total := blob.size }
    (none, status_)

/-- The retry loop of `makeRequest`: `i` is the loop counter, `lastError` the
accumulated transient error; `fetch n` is the response of the `(n+1)`-th
attempt and `isRetry` the retryable-status predicate (external collaborator
`isRetryStatusCode(status, [])`).  The second component counts the attempts
performed. -/
def makeRequestGo (isRetry : Nat → Bool) (fetch : Nat → HttpResponse) (retryLimit : Nat)
    (i : Nat) (lastError : Option StorageError) :
    Except StorageError HttpResponse × Nat :=
  if h : i < retryLimit then
    let req := fetch i
    if !req.ok then
      (if !(isRetry req.status) then (Except.error StorageError.unknown, i + 1)
       else makeRequestGo isRetry fetch retryLimit (i + 1) (some StorageError.unknown))
    else (Except.ok req, i + 1)
  else
    match lastError with
    | some e => (Except.error e, i)
    | none => (Except.error StorageError.retryLimitExceeded, i)
termination_by retryLimit - i
decreasing_by omega

/-- Model of `makeRequest`: run the retry loop from attempt 0 with no recorded error. -/
def makeRequest (isRetry : Nat → Bool) (fetch : Nat → HttpResponse) (retryLimit : Nat) :
    Except StorageError HttpResponse × Nat :=
  makeRequestGo isRetry fetch retryLimit 0 none

/-! Concrete values used to evaluate the theorems below on sample inputs. -/

/-- A response sequence: two 503 responses followed by a 200 response. -/
def fetchD : Nat → HttpResponse := fun n =>
  if n < 2 then ⟨503, "Service Unavailable", [], ""⟩ else ⟨200, "OK", [], "payload"⟩

/-- A retryable-status predicate under which 503 is retryable. -/
def isRetryD : Nat → Bool := fun s => s == 503

/-- A session-start response carrying an active status and a session URL. -/
def resW7 : HttpResponse :=
  ⟨200, "OK",
   [("X-Goog-Upload-Status", "active"), ("X-Goog-Upload-URL", "https://session.example/u1")],
   ""⟩

/-- A 204 No Content response. -/
def res204 : HttpResponse := ⟨204, "No Content", [], ""⟩

/-- A chunk-upload response reporting `final`. -/
def resFinalW : HttpResponse := ⟨200, "OK", [("X-Goog-Upload-Status", "final")], "meta"⟩

/-- A status-query response reporting `final` with 5 of 10 bytes received. -/
def resQueryW : HttpResponse :=
  ⟨200, "OK", [("X-Goog-Upload-Status", "final"), ("X-Goog-Upload-Size-Received", "5")], ""⟩

/-- The request built for a 5-byte chunk of a 10-byte blob starting at offset 0. -/
def reqW : ContinueUploadRequest := ⟨"upload", 0, ⟨0, 5⟩, 0, 10, 5⟩

/-- The status the chunk-upload handler produces from `reqW` and `resFinalW`. -/
def stW : ResumableUploadStatus := ⟨5, 10, true, some ⟨"meta"⟩⟩

/-- The status the status-query handler produces from `resQueryW`. -/
def stQueryW : ResumableUploadStatus := ⟨5, 10, true, none⟩

/-! Helper lemmas. -/

/-- The three possible upload commands, characterised by `bytesToUpload` and the
remaining byte count. -/
theorem uploadCommandSpec (current total btu : Int) (h0 : 0 ≤ btu) :
    ((if btu = 0 then "finalize"
      else if total - current = btu then "upload, finalize" else "upload") = "finalize"
        ↔ btu = 0) ∧
    ((if btu = 0 then "finalize"
      else if total - current = btu then "upload, finalize" else "upload") = "upload, finalize"
        ↔ 0 < btu ∧ current + btu = total) ∧
    ((if btu = 0 then "finalize"
      else if total - current = btu then "upload, finalize" else "upload") = "upload"
        ↔ 0 < btu ∧ current + btu ≠ total) := by
  by_cases hz : btu = 0 <;> by_cases he : total - current = btu <;>
    simp [hz, he] <;> omega

/-- Inversion for `checkResumeHeader_`: a successful check returns exactly the
header value, which is a non-empty member of the allowed list. -/
theorem checkResumeHeaderOkInv (res : HttpResponse) (allowed : Option (List String)) (s : String)
    (h : checkResumeHeader_ res allowed = Except.ok s) :
    res.headerGet "X-Goog-Upload-Status" = some s ∧
    (allowed.getD ["active"]).contains s = true ∧ s ≠ "" := by
  unfold checkResumeHeader_ at h
  split at h
  · cases h
  next v hg =>
    split at h
    next hv =>
      cases h
      simp only [Bool.and_eq_true] at hv
      obtain ⟨h1, h2⟩ := hv
      refine ⟨hg, h2, ?_⟩
      intro hemp
      rw [hemp] at h1
      simp at h1
    · cases h

/-- A string contained in a singleton list equals its element. -/
theorem containsSingletonEq (s a : String) (h : ([a] : List String).contains s = true) :
    s = a := by
  have : s ∈ [a] := by
    have := List.contains_iff_exists_mem_beq.mp h
    obtain ⟨x, hx, hbeq⟩ := this
    have : s = x := eq_of_beq hbeq
    rw [this]
    exact hx
  simpa using this

/-- One step of the retry loop while attempts remain. -/
theorem makeRequestGoStep (isRetry : Nat → Bool) (fetch : Nat → HttpResponse)
    (retryLimit i : Nat) (lastErr : Option StorageError) (h : i < retryLimit) :
    makeRequestGo isRetry fetch retryLimit i lastErr =
      (if !(fetch i).ok then
        (if !(isRetry (fetch i).status) then (Except.error StorageError.unknown, i + 1)
         else makeRequestGo isRetry fetch retryLimit (i + 1) (some StorageError.unknown))
       else (Except.ok (fetch i), i + 1)) := by
  conv_lhs => rw [makeRequestGo.eq_def]
  simp [h]

/-- The retry loop once attempts are exhausted. -/
theorem makeRequestGoStop (isRetry : Nat → Bool) (fetch : Nat → HttpResponse)
    (retryLimit i : Nat) (lastErr : Option StorageError) (h : ¬i < retryLimit) :
    makeRequestGo isRetry fetch retryLimit i lastErr =
      (match lastErr with
       | some e => (Except.error e, i)
       | none => (Except.error StorageError.retryLimitExceeded, i)) := by
  conv_lhs => rw [makeRequestGo.eq_def]
  simp [h]

/-- If every remaining attempt yields a retryable non-ok response, the loop
runs to exhaustion and surfaces the recorded transient `unknown` error. -/
theorem goAllRetry (isRetry : Nat → Bool) (fetch : Nat → HttpResponse) (retryLimit : Nat)
    (hall : ∀ j, j < retryLimit → (fetch j).ok = false ∧ isRetry (fetch j).status = true) :
    ∀ k i, retryLimit - i = k → i < retryLimit →
      makeRequestGo isRetry fetch retryLimit i (some StorageError.unknown) =
        (Except.error StorageError.unknown, retryLimit) := by
  intro k
  induction k with
  | zero => intro i hk hi; omega
  | succ n ih =>
    intro i hk hi
    rw [makeRequestGoStep isRetry fetch retryLimit i (some StorageError.unknown) hi]
    obtain ⟨hok, hr⟩ := hall i hi
    simp only [hok, hr, Bool.not_false, Bool.not_true, if_true, if_false]
    by_cases h2 : i + 1 < retryLimit
    · exact ih (i + 1) (by omega) h2
    · rw [makeRequestGoStop isRetry fetch retryLimit (i + 1) (some StorageError.unknown) h2]
      have he : i + 1 = retryLimit := by omega
      simp [he]

/-- Inversion for the chunk-upload handler: the shape of every status it
returns. -/
theorem continueHandlerOkInv (req : ContinueUploadRequest) (loc : Location)
    (f : String → Option Metadata) (b : FbsBlob) (res : HttpResponse)
    (st : ResumableUploadStatus)
    (h : continueResumableUploadHandler req loc f b res = Except.ok st) :
    st.current = req.statusCurrent + req.bytesToUpload ∧
    st.total = b.size ∧
    (st.finalized = true ↔ res.headerGet "X-Goog-Upload-Status" = some "final") ∧
    (st.finalized = true → ∃ m, st.metadata = some m) ∧
    (st.finalized = false → st.metadata = none) := by
  unfold continueResumableUploadHandler at h
  split at h
  · cases h
  · split at h
    · cases h
    next uploadStatus hcheck =>
      obtain ⟨hg, _, _⟩ := checkResumeHeaderOkInv res (some ["active", "final"]) uploadStatus hcheck
      split at h
      next hfin =>
        have heq : uploadStatus = "final" := eq_of_beq hfin
        split at h
        · cases h
        next m hm =>
          cases h
          refine ⟨rfl, rfl, ?_, ?_, ?_⟩
          · simp [hg, heq]
          · intro _; exact ⟨m, rfl⟩
          · intro hc; cases hc
      next hfin =>
        have hne : uploadStatus ≠ "final" := by
          intro hc
          rw [hc] at hfin
          simp at hfin
        cases h
        refine ⟨rfl, rfl, ?_, ?_, ?_⟩
        · constructor
          · intro hc; cases hc
          · intro hc
            rw [hg] at hc
            exact absurd (Option.some.inj hc) hne
        · intro hc; cases hc
        · intro _; rfl

/-- Inversion for the status-query handler: it never attaches metadata, and it
reports `final` exactly as the header does. -/
theorem statusHandlerOkInv (res : HttpResponse) (b : FbsBlob) (st : ResumableUploadStatus)
    (h : getResumableUploadStatusHandler res b = Except.ok st) :
    st.metadata = none ∧ st.total = b.size := by
  unfold getResumableUploadStatusHandler at h
  split at h
  · cases h
  · split at h
    · cases h
    · split at h
      · cases h
      · split at h
        · cases h
        · cases h
          exact ⟨rfl, rfl⟩

/-! The claims. -/

/-- Claim C1: for every status with `0 ≤ current ≤ total`,
`buildContinueResumableUploadRequest` computes
`bytesToUpload = min (total - current) chunkSize` when `chunkSize > 0`
(and `total - current` otherwise), sets the upload command to `finalize`
iff `bytesToUpload = 0`, to `upload, finalize` iff `bytesToUpload > 0`
and `current + bytesToUpload = total`, and to `upload` otherwise, puts
`current` in the upload-offset header, and slices the body to
`[current, current + bytesToUpload)`. -/
theorem claim1 (current total chunkSize : Int) (fin : Bool) (md : Option Metadata)
    (h0 : 0 ≤ current) (hct : current ≤ total) :
    ∃ req : ContinueUploadRequest,
      buildContinueResumableUploadRequest ⟨total, true⟩ chunkSize
          (some ⟨current, total, fin, md⟩) = Except.ok req ∧
      req.bytesToUpload =
        (if 0 < chunkSize then min (total - current) chunkSize else total - current) ∧
      (req.uploadCommand = "finalize" ↔ req.bytesToUpload = 0) ∧
      (req.uploadCommand = "upload, finalize" ↔
        0 < req.bytesToUpload ∧ current + req.bytesToUpload = total) ∧
      (req.uploadCommand = "upload" ↔
        0 < req.bytesToUpload ∧ current + req.bytesToUpload ≠ total) ∧
      req.uploadOffset = current ∧
      req.body = ⟨current, current + req.bytesToUpload⟩ := by
  have hbtu0 :
      0 ≤ (if 0 < chunkSize then min (total - current) chunkSize else total - current) := by
    by_cases hc : 0 < chunkSize
    · simp only [hc, if_true]
      exact le_min (by omega) (by omega)
    · simp only [hc, if_false]
      omega
  refine ⟨⟨(if (if 0 < chunkSize then min (total - current) chunkSize else total - current) = 0
            then "finalize"
            else if total - current =
                (if 0 < chunkSize then min (total - current) chunkSize else total - current)
              then "upload, finalize" else "upload"),
          current,
          ⟨current,
           current + (if 0 < chunkSize then min (total - current) chunkSize else total - current)⟩,
          current, total,
          (if 0 < chunkSize then min (total - current) chunkSize else total - current)⟩,
        ?_, rfl, ?_, ?_, ?_, rfl, rfl⟩
  · simp [buildContinueResumableUploadRequest, FbsBlob.size, FbsBlob.slice]
  · exact (uploadCommandSpec current total _ hbtu0).1
  · exact (uploadCommandSpec current total _ hbtu0).2.1
  · exact (uploadCommandSpec current total _ hbtu0).2.2

/-- Witness for C1: a 1-byte chunk of a 3-byte blob from offset 1. -/
theorem claim1_witness :
    ∃ req : ContinueUploadRequest,
      buildContinueResumableUploadRequest ⟨3, true⟩ 1 (some ⟨1, 3, false, none⟩) =
        Except.ok req ∧
      req.bytesToUpload = (if (0 : Int) < 1 then min ((3 : Int) - 1) 1 else 3 - 1) ∧
      (req.uploadCommand = "finalize" ↔ req.bytesToUpload = 0) ∧
      (req.uploadCommand = "upload, finalize" ↔
        0 < req.bytesToUpload ∧ 1 + req.bytesToUpload = 3) ∧
      (req.uploadCommand = "upload" ↔ 0 < req.bytesToUpload ∧ 1 + req.bytesToUpload ≠ 3) ∧
      req.uploadOffset = 1 ∧
      req.body = ⟨1, 1 + req.bytesToUpload⟩ :=
  claim1 1 3 1 false none (by norm_num) (by norm_num)

/-- Claim C2 is false on the code: a chunk-upload response reporting `final`
after a 5-byte chunk of a 10-byte blob is accepted — the handler returns a
finalized status with `current = 5 < 10 = total` instead of throwing. -/
theorem claim2_counterexample :
    buildContinueResumableUploadRequest ⟨10, true⟩ 5 (some ⟨0, 10, false, none⟩) =
      Except.ok reqW ∧
    continueResumableUploadHandler reqW ⟨"b", "p"⟩ (fun s => some ⟨s⟩) ⟨10, true⟩ resFinalW =
      Except.ok stW ∧
    stW.finalized = true ∧ stW.current < stW.total :=
  ⟨rfl, rfl, rfl, by decide⟩

/-- Claim C2 (amended): when the chunk-upload response reports `final`, the
handler returns (rather than throws) a finalized status with metadata attached
and `current = previous current + bytesToUpload`; this equals `total` only when
the chunk reached the end of the blob — no check enforces it. -/
theorem claim2_amended (req : ContinueUploadRequest) (loc : Location)
    (f : String → Option Metadata) (b : FbsBlob) (res : HttpResponse)
    (st : ResumableUploadStatus)
    (h : continueResumableUploadHandler req loc f b res = Except.ok st)
    (hfinal : res.headerGet "X-Goog-Upload-Status" = some "final") :
    st.finalized = true ∧ (∃ m, st.metadata = some m) ∧
    st.current = req.statusCurrent + req.bytesToUpload ∧ st.total = b.size := by
  obtain ⟨h1, h2, h3, h4, _⟩ := continueHandlerOkInv req loc f b res st h
  have hf : st.finalized = true := h3.mpr hfinal
  exact ⟨hf, h4 hf, h1, h2⟩

/-- Witness for the amended C2, on the final response of `claim2_counterexample`. -/
theorem claim2_witness :
    stW.finalized = true ∧ (∃ m, stW.metadata = some m) ∧
    stW.current = reqW.statusCurrent + reqW.bytesToUpload ∧
    stW.total = FbsBlob.size ⟨10, true⟩ :=
  claim2_amended reqW ⟨"b", "p"⟩ (fun s => some ⟨s⟩) ⟨10, true⟩ resFinalW stW rfl rfl

/-- Claim C3 is false on the code: the status-query handler constructs its
status without a metadata argument, so a `final` query response yields
`finalized = true` with `metadata = null` — and `current = 5 ≠ 10 = total`. -/
theorem claim3_counterexample :
    getResumableUploadStatusHandler resQueryW ⟨10, true⟩ = Except.ok stQueryW ∧
    stQueryW.finalized = true ∧ stQueryW.metadata = none ∧
    stQueryW.current ≠ stQueryW.total :=
  ⟨rfl, rfl, rfl, by decide⟩

/-- Claim C3 (amended): the chunk-upload handler attaches non-null metadata
whenever it reports `finalized`; the status-query handler never attaches
metadata (even on a `final` response), and neither handler enforces
`current = total` when finalized. -/
theorem claim3_amended :
    (∀ req loc f b res st, continueResumableUploadHandler req loc f b res = Except.ok st →
       st.finalized = true → ∃ m, st.metadata = some m) ∧
    (∀ res b st, getResumableUploadStatusHandler res b = Except.ok st →
       st.metadata = none) := by
  constructor
  · intro req loc f b res st h hf
    exact (continueHandlerOkInv req loc f b res st h).2.2.2.1 hf
  · intro res b st h
    exact (statusHandlerOkInv res b st h).1

/-- Witness for the amended C3. -/
theorem claim3_witness :
    (∃ m, stW.metadata = some m) ∧ stQueryW.metadata = none :=
  ⟨claim3_amended.1 reqW ⟨"b", "p"⟩ (fun s => some ⟨s⟩) ⟨10, true⟩ resFinalW stW rfl rfl,
   claim3_amended.2 resQueryW ⟨10, true⟩ stQueryW rfl⟩

/-- Claim C4: the status translator classifies every non-ok response into
exactly one domain error — 401 with the app-check marker to
`unauthorizedApp`, other 401 to `unauthenticated`, 402 to `quotaExceeded`
with the bucket, 403 to `unauthorized` with the path, everything else to
`unknown`; only `objectErrorHandler` refines 404 into `objectNotFound` with
the path, and an ok response passes through unchanged. -/
theorem claim4 (res : HttpResponse) (loc : Location) :
    (res.ok = true →
       sharedErrorHandler res loc = Except.ok res ∧
       objectErrorHandler res loc = Except.ok res) ∧
    (res.ok = false →
       (res.status = 401 →
          strContains res.statusText "Firebase App Check token is invalid" = true →
          sharedErrorHandler res loc = Except.error StorageError.unauthorizedApp) ∧
       (res.status = 401 →
          strContains res.statusText "Firebase App Check token is invalid" = false →
          sharedErrorHandler res loc = Except.error StorageError.unauthenticated) ∧
       (res.status = 402 →
          sharedErrorHandler res loc = Except.error (StorageError.quotaExceeded loc.bucket)) ∧
       (res.status = 403 →
          sharedErrorHandler res loc = Except.error (StorageError.unauthorized loc.path)) ∧
       (res.status ≠ 401 → res.status ≠ 402 → res.status ≠ 403 →
          sharedErrorHandler res loc = Except.error StorageError.unknown) ∧
       (res.status = 404 →
          objectErrorHandler res loc = Except.error (StorageError.objectNotFound loc.path)) ∧
       (res.status ≠ 404 → objectErrorHandler res loc = sharedErrorHandler res loc)) := by
  constructor
  · intro hok
    have h1 : sharedErrorHandler res loc = Except.ok res := by
      simp [sharedErrorHandler, hok]
    exact ⟨h1, by simp [objectErrorHandler, h1]⟩
  · intro hok
    refine ⟨?_, ?_, ?_, ?_, ?_, ?_, ?_⟩
    · intro hs hm
      simp [sharedErrorHandler, hok, hs, hm]
    · intro hs hm
      simp [sharedErrorHandler, hok, hs, hm]
    · intro hs
      simp [sharedErrorHandler, hok, hs]
    · intro hs
      simp [sharedErrorHandler, hok, hs]
    · intro h1 h2 h3
      have b1 : (res.status == 401) = false := by simp [h1]
      have b2 : (res.status == 402) = false := by simp [h2]
      have b3 : (res.status == 403) = false := by simp [h3]
      simp [sharedErrorHandler, hok, b1, b2, b3]
    · intro hs
      have hsh : sharedErrorHandler res loc = Except.error StorageError.unknown := by
        simp [sharedErrorHandler, hok, hs]
      simp [objectErrorHandler, hsh, hs]
    · intro hs
      have b4 : (res.status == 404) = false := by simp [hs]
      cases hsh : sharedErrorHandler res loc with
      | ok r => simp [objectErrorHandler, hsh]
      | error e => simp [objectErrorHandler, hsh, b4]

/-- Witness for C4: a 403 response yields `unauthorized` with the path. -/
theorem claim4_witness :
    sharedErrorHandler ⟨403, "Forbidden", [], ""⟩ ⟨"bkt", "obj/a"⟩ =
      Except.error (StorageError.unauthorized "obj/a") :=
  (((claim4 ⟨403, "Forbidden", [], ""⟩ ⟨"bkt", "obj/a"⟩).2 (by decide)).2.2.2.1) rfl

/-- Claim C5: in `makeRequest`, a retryable non-ok attempt records the
transient `unknown` failure and retries, a non-retryable non-ok attempt is
surfaced immediately without further attempts, an ok response is returned at
once, and with `retryLimit = 3` and responses 503, 503, 200 the executor
returns the 200 response after exactly 3 attempts. -/
theorem claim5 (isRetry : Nat → Bool) (fetch : Nat → HttpResponse)
    (retryLimit i : Nat) (lastErr : Option StorageError) (hi : i < retryLimit) :
    ((fetch i).ok = false → isRetry (fetch i).status = true →
       makeRequestGo isRetry fetch retryLimit i lastErr =
         makeRequestGo isRetry fetch retryLimit (i + 1) (some StorageError.unknown)) ∧
    ((fetch i).ok = false → isRetry (fetch i).status = false →
       makeRequestGo isRetry fetch retryLimit i lastErr =
         (Except.error StorageError.unknown, i + 1)) ∧
    ((fetch i).ok = true →
       makeRequestGo isRetry fetch retryLimit i lastErr = (Except.ok (fetch i), i + 1)) ∧
    (retryLimit = 3 → isRetry 503 = true →
       (∀ j, j < 2 → (fetch j).status = 503) → (fetch 2).status = 200 →
       makeRequest isRetry fetch 3 = (Except.ok (fetch 2), 3)) := by
  refine ⟨?_, ?_, ?_, ?_⟩
  · intro hok hr
    rw [makeRequestGoStep isRetry fetch retryLimit i lastErr hi]
    simp [hok, hr]
  · intro hok hr
    rw [makeRequestGoStep isRetry fetch retryLimit i lastErr hi]
    simp [hok, hr]
  · intro hok
    rw [makeRequestGoStep isRetry fetch retryLimit i lastErr hi]
    simp [hok]
  · intro _ hr h503 h200
    have o0 : (fetch 0).ok = false := by simp [HttpResponse.ok, h503 0 (by omega)]
    have o1 : (fetch 1).ok = false := by simp [HttpResponse.ok, h503 1 (by omega)]
    have o2 : (fetch 2).ok = true := by simp [HttpResponse.ok, h200]
    unfold makeRequest
    rw [makeRequestGoStep isRetry fetch 3 0 none (by omega)]
    simp only [o0, h503 0 (by omega), hr, Bool.not_false, Bool.not_true, if_true, if_false]
    rw [makeRequestGoStep isRetry fetch 3 1 (some StorageError.unknown) (by omega)]
    simp only [o1, h503 1 (by omega), hr, Bool.not_false, Bool.not_true, if_true, if_false]
    rw [makeRequestGoStep isRetry fetch 3 2 (some StorageError.unknown) (by omega)]
    simp [o2]

/-- Witness for C5: the 503, 503, 200 scenario with a concrete retryable set. -/
theorem claim5_witness :
    makeRequest isRetryD fetchD 3 = (Except.ok (fetchD 2), 3) :=
  (claim5 isRetryD fetchD 3 0 none (by omega)).2.2.2 rfl rfl (by decide) rfl

/-- Claim C6: when `makeRequest` exhausts all attempts it throws the last
transient error — the recorded `unknown` — whenever at least one attempt ran
(the loop then never produced a definitive classification), and
`retryLimitExceeded` when no transient error was ever recorded
(`retryLimit = 0`, so the loop body never ran). -/
theorem claim6 (isRetry : Nat → Bool) (fetch : Nat → HttpResponse) (retryLimit : Nat) :
    (1 ≤ retryLimit →
       (∀ j, j < retryLimit → (fetch j).ok = false ∧ isRetry (fetch j).status = true) →
       makeRequest isRetry fetch retryLimit = (Except.error StorageError.unknown, retryLimit)) ∧
    makeRequest isRetry fetch 0 = (Except.error StorageError.retryLimitExceeded, 0) := by
  constructor
  · intro h1 hall
    unfold makeRequest
    rw [makeRequestGoStep isRetry fetch retryLimit 0 none (by omega)]
    obtain ⟨hok, hr⟩ := hall 0 (by omega)
    simp only [hok, hr, Bool.not_false, Bool.not_true, if_true, if_false]
    by_cases h2 : 1 < retryLimit
    · exact goAllRetry isRetry fetch retryLimit hall (retryLimit - 1) 1 rfl h2
    · rw [makeRequestGoStop isRetry fetch retryLimit 1 (some StorageError.unknown) h2]
      have he : retryLimit = 1 := by omega
      simp [he]
  · unfold makeRequest
    rw [makeRequestGoStop isRetry fetch 0 0 none (by omega)]

/-- Witness for C6: two retryable 503 attempts exhaust a limit of 2 and
surface the transient `unknown` error. -/
theorem claim6_witness :
    makeRequest isRetryD (fun _ => ⟨503, "Service Unavailable", [], ""⟩) 2 =
      (Except.error StorageError.unknown, 2) :=
  (claim6 isRetryD (fun _ => ⟨503, "Service Unavailable", [], ""⟩) 2).1 (by omega) (by decide)

/-- Claim C7: the session-start handler returns the session URL only when the
upload-status header equals `active` and the upload-URL header is present; a
missing or non-`active` status, or a missing URL, yields the `unknown` domain
error. -/
theorem claim7 (res : HttpResponse) :
    (∀ u, createResumableUploadHandler res = Except.ok u →
       res.headerGet "X-Goog-Upload-Status" = some "active" ∧
       res.headerGet "X-Goog-Upload-URL" = some u) ∧
    ((res.headerGet "X-Goog-Upload-Status" ≠ some "active" ∨
        res.headerGet "X-Goog-Upload-URL" = none) →
       createResumableUploadHandler res = Except.error StorageError.unknown) := by
  constructor
  · intro u h
    unfold createResumableUploadHandler at h
    split at h
    · cases h
    next s hcheck =>
      obtain ⟨hg, hc, _⟩ := checkResumeHeaderOkInv res none s hcheck
      have hs : s = "active" := containsSingletonEq s "active" hc
      rw [hs] at hg
      cases hurl : res.headerGet "X-Goog-Upload-URL" with
      | none =>
        rw [hurl] at h
        simp [isString] at h
      | some v =>
        rw [hurl] at h
        simp only [isString, Option.isSome_some, if_true, Option.getD_some] at h
        cases h
        exact ⟨hg, rfl⟩
  · intro hbad
    unfold createResumableUploadHandler
    cases hst : res.headerGet "X-Goog-Upload-Status" with
    | none => simp [checkResumeHeader_, hst]
    | some s =>
      by_cases hs : s = "active"
      · have hurl : res.headerGet "X-Goog-Upload-URL" = none := by
          rcases hbad with hb | hb
          · rw [hst, hs] at hb
            exact absurd rfl hb
          · exact hb
        simp [checkResumeHeader_, hst, hs, hurl, isString]
      · simp [checkResumeHeader_, hst, hs]

/-- Witness for C7: an active session-start response with a session URL. -/
theorem claim7_witness :
    resW7.headerGet "X-Goog-Upload-Status" = some "active" ∧
    resW7.headerGet "X-Goog-Upload-URL" = some "https://session.example/u1" :=
  (claim7 resW7).1 "https://session.example/u1" rfl

/-- Claim C8: a 416 download-bytes response throws the distinct
range-not-satisfiable error, which differs from the generic `unknown`. -/
theorem claim8 (res : HttpResponse) (loc : Location) (h : res.status = 416) :
    getBytesResponseHandler res loc = Except.error StorageError.rangeNotSatisfiable ∧
    StorageError.rangeNotSatisfiable ≠ StorageError.unknown := by
  constructor
  · simp [getBytesResponseHandler, h]
  · decide

/-- Witness for C8. -/
theorem claim8_witness :
    getBytesResponseHandler ⟨416, "Requested Range Not Satisfiable", [], ""⟩ ⟨"b", "o/p"⟩ =
      Except.error StorageError.rangeNotSatisfiable ∧
    StorageError.rangeNotSatisfiable ≠ StorageError.unknown :=
  claim8 ⟨416, "Requested Range Not Satisfiable", [], ""⟩ ⟨"b", "o/p"⟩ rfl

/-- Claim C9: `buildContinueResumableUploadRequest` never writes to the
caller's status object — on the explicit two-object store of
`buildContinueWrites` the caller's object comes back untouched, the builder
only reads `current` and `total` from it, and the handler returns a freshly
constructed status whose fields are computed from the request data and blob,
not obtained by updating the old object. -/
theorem claim9 (blob : FbsBlob) (chunkSize : Int) (st : ResumableUploadStatus) :
    (buildContinueWrites blob (some st)).1 = some st ∧
    (∀ req, buildContinueResumableUploadRequest blob chunkSize (some st) = Except.ok req →
       req.statusCurrent = st.current ∧ req.statusTotal = st.total) ∧
    (∀ req loc f res out,
       continueResumableUploadHandler req loc f blob res = Except.ok out →
       out = ⟨req.statusCurrent + req.bytesToUpload, blob.size, out.finalized, out.metadata⟩) := by
  refine ⟨rfl, ?_, ?_⟩
  · intro req h
    simp only [buildContinueResumableUploadRequest] at h
    split at h
    · cases h
    · split at h
      · cases h
      · cases h
        exact ⟨rfl, rfl⟩
  · intro req loc f res out h
    obtain ⟨h1, h2, _, _, _⟩ := continueHandlerOkInv req loc f blob res out h
    cases out with
    | mk c t fz m =>
      simp only [ResumableUploadStatus.mk.injEq, and_true]
      exact ⟨h1, h2⟩

/-- Witness for C9, on a 4-byte chunk of a 10-byte blob from offset 2. -/
theorem claim9_witness :
    (⟨"upload", 2, ⟨2, 6⟩, 2, 10, 4⟩ : ContinueUploadRequest).statusCurrent =
      (⟨2, 10, false, none⟩ : ResumableUploadStatus).current ∧
    (⟨"upload", 2, ⟨2, 6⟩, 2, 10, 4⟩ : ContinueUploadRequest).statusTotal =
      (⟨2, 10, false, none⟩ : ResumableUploadStatus).total :=
  (claim9 ⟨10, true⟩ 4 ⟨2, 10, false, none⟩).2.1 ⟨"upload", 2, ⟨2, 6⟩, 2, 10, 4⟩ rfl

/-- Claim C10: every response whose status is neither 200 nor 206 makes
`getBytesResponseHandler` throw; outside 416 the error is the generic
`unknown`, and in particular a 204 response is rejected with `unknown` even
though it is ok. -/
theorem claim10 (res : HttpResponse) (loc : Location)
    (h200 : res.status ≠ 200) (h206 : res.status ≠ 206) :
    (∃ e, getBytesResponseHandler res loc = Except.error e) ∧
    (res.status ≠ 416 →
       getBytesResponseHandler res loc = Except.error StorageError.unknown) ∧
    (res.status = 204 →
       getBytesResponseHandler res loc = Except.error StorageError.unknown ∧
       res.ok = true) := by
  have hnot : ∀ hne : res.status ≠ 416,
      getBytesResponseHandler res loc = Except.error StorageError.unknown := by
    intro hne
    simp [getBytesResponseHandler, hne, h200, h206]
  by_cases h416 : res.status = 416
  · refine ⟨⟨StorageError.rangeNotSatisfiable, by simp [getBytesResponseHandler, h416]⟩, ?_, ?_⟩
    · intro hne
      exact absurd h416 hne
    · intro h204
      rw [h204] at h416
      cases h416
  · refine ⟨⟨StorageError.unknown, hnot h416⟩, hnot, ?_⟩
    intro h204
    exact ⟨hnot h416, by simp [HttpResponse.ok, h204]⟩

/-- Witness for C10: a 204 No Content response. -/
theorem claim10_witness :
    (∃ e, getBytesResponseHandler res204 ⟨"b", "p"⟩ = Except.error e) ∧
    (res204.status ≠ 416 →
       getBytesResponseHandler res204 ⟨"b", "p"⟩ = Except.error StorageError.unknown) ∧
    (res204.status = 204 →
       getBytesResponseHandler res204 ⟨"b", "p"⟩ = Except.error StorageError.unknown ∧
       res204.ok = true) :=
  claim10 res204 ⟨"b", "p"⟩ (by decide) (by decide)

end Storage
